import Mathlib

/-!
Verification development for the TalkToDBAgent SQL pipeline
(`server/app/services/sql/guardrails.py`, `sql_chain.py`, `executor.py`,
`schema_discovery.py` and `server/app/api/routes/query.py`).

Python strings are modelled as lists of Unicode codepoints (`List Nat`);
the relevant string operations (`strip`, `upper`, `lower`, `in`,
`startswith`, `rstrip(";")`) are defined below to match CPython semantics
on the ASCII texts the services manipulate.
-/

namespace TalkToDB

/-- Codepoints of a Lean string literal; Python `str` values are modelled
as lists of codepoints. -/
def pyStr (s : String) : List Nat := s.data.map Char.toNat

/-- The whitespace class stripped by Python `str.strip()` (ASCII part). -/
def pySpace (n : Nat) : Bool :=
  decide (n = 32 ∨ n = 9 ∨ n = 10 ∨ n = 13 ∨ n = 11 ∨ n = 12)

/-- `str.upper()` on one codepoint (ASCII range, as in the SQL texts). -/
def upperChar (n : Nat) : Nat := if 97 ≤ n ∧ n ≤ 122 then n - 32 else n

/-- `str.lower()` on one codepoint (ASCII range). -/
def lowerChar (n : Nat) : Nat := if 65 ≤ n ∧ n ≤ 90 then n + 32 else n

/-- Python `s.upper()`. -/
def pyUpper (l : List Nat) : List Nat := l.map upperChar

/-- Python `s.lower()`. -/
def pyLower (l : List Nat) : List Nat := l.map lowerChar

/-- Python `s.lstrip()`. -/
def lstrip (l : List Nat) : List Nat := l.dropWhile pySpace

/-- Python `s.rstrip()` (whitespace). -/
def rstripWS (l : List Nat) : List Nat := l.rdropWhile pySpace

/-- Python `s.strip()`. -/
def pyStrip (l : List Nat) : List Nat := rstripWS (lstrip l)

/-- Python `s.rstrip(";")`: remove the whole trailing run of semicolons. -/
def rstripSemi (l : List Nat) : List Nat := l.rdropWhile (fun n => n == 59)

/-- Python `pat in s` (substring containment). -/
def pyIn (pat : List Nat) : List Nat → Bool
  | [] => pat.isPrefixOf []
  | c :: t => pat.isPrefixOf (c :: t) || pyIn pat t

/-- Python `s.startswith(pat)`. -/
def startsWith (pat l : List Nat) : Bool := pat.isPrefixOf l

/-- Removing at most one trailing `;` (how the spec reads "exactly one
trailing terminator"); used only to state claims, not by the embedded code. -/
def stripOneTrailingSemi (l : List Nat) : List Nat :=
  if l.getLast? = some 59 then l.dropLast else l

/-! ### Guardrails (`services/sql/guardrails.py`, `validate_sql`) -/

/-- Result model of `SQLGuardrailsService.validate_sql`. -/
structure SQLValidationResult where
  is_safe : Bool
  warnings : List (List Nat)
  block_execution : Bool
deriving DecidableEq

/-- The `dangerous_keywords` list, verbatim (each entry carries the
trailing space it has in the source). -/
def dangerousKeywords : List (List Nat) :=
  [pyStr "DROP ", pyStr "TRUNCATE ", pyStr "ALTER ", pyStr "DELETE ",
   pyStr "UPDATE ", pyStr "INSERT ", pyStr "MERGE ", pyStr "CREATE ",
   pyStr "REPLACE ", pyStr "GRANT ", pyStr "REVOKE "]

/-- The multiple-statements warning text. -/
def multiStmtWarning : List Nat :=
  pyStr "Multiple SQL statements detected; only single SELECT allowed"

/-- `SQLGuardrailsService.validate_sql`: upper-case the stripped text; if it
does not start with `SELECT`, collect a warning for every dangerous keyword
occurring as a substring; then flag a remaining `;` after stripping the whole
trailing semicolon run. -/
def validate_sql (sql : List Nat) : SQLValidationResult :=
  let sql_upper := pyUpper (pyStrip sql)
  let hits := if startsWith (pyStr "SELECT") sql_upper then []
              else dangerousKeywords.filter (fun kw => pyIn kw sql_upper)
  let kwWarnings := hits.map (fun kw => pyStr "Detected dangerous keyword: " ++ pyStrip kw)
  let multi := pyIn (pyStr ";") (rstripSemi (pyStrip sql_upper))
  let warnings := kwWarnings ++ (if multi then [multiStmtWarning] else [])
  let block := !hits.isEmpty || multi
  { is_safe := !block, warnings := warnings, block_execution := block }

/-! ### Character-level facts used to push `upper()` through the other
string operations -/

theorem pySpace_upperChar (n : Nat) : pySpace (upperChar n) = pySpace n := by
  unfold pySpace upperChar
  split
  · simp only [decide_eq_decide]
    omega
  · rfl

theorem upperChar_eq_semi {n : Nat} : upperChar n = 59 ↔ n = 59 := by
  unfold upperChar
  split <;> omega

theorem beq_semi_upperChar (n : Nat) : (upperChar n == 59) = (n == 59) := by
  by_cases h : n = 59
  · subst h; rfl
  · have h2 : upperChar n ≠ 59 := fun hc => h (upperChar_eq_semi.mp hc)
    simp [h, h2]

theorem pySpace_comp_upperChar : pySpace ∘ upperChar = pySpace := by
  funext n
  exact pySpace_upperChar n

theorem beq_semi_comp_upperChar : ((fun n => n == 59) ∘ upperChar) = (fun n : Nat => n == 59) := by
  funext n
  exact beq_semi_upperChar n

theorem lstrip_pyUpper (l : List Nat) : lstrip (pyUpper l) = pyUpper (lstrip l) := by
  unfold lstrip pyUpper
  rw [List.dropWhile_map, pySpace_comp_upperChar]

theorem rstripWS_pyUpper (l : List Nat) : rstripWS (pyUpper l) = pyUpper (rstripWS l) := by
  unfold rstripWS pyUpper List.rdropWhile
  rw [← List.map_reverse, List.dropWhile_map, ← List.map_reverse, pySpace_comp_upperChar]

theorem rstripSemi_pyUpper (l : List Nat) : rstripSemi (pyUpper l) = pyUpper (rstripSemi l) := by
  unfold rstripSemi pyUpper List.rdropWhile
  rw [← List.map_reverse, List.dropWhile_map, ← List.map_reverse, beq_semi_comp_upperChar]

theorem pyStrip_pyUpper (l : List Nat) : pyStrip (pyUpper l) = pyUpper (pyStrip l) := by
  unfold pyStrip
  rw [lstrip_pyUpper, rstripWS_pyUpper]

theorem lstrip_idem (l : List Nat) : lstrip (lstrip l) = lstrip l :=
  List.dropWhile_idempotent _ _

theorem rstripWS_idem (l : List Nat) : rstripWS (rstripWS l) = rstripWS l :=
  List.rdropWhile_idempotent _ _

theorem lstrip_rstripWS (l : List Nat) (h : lstrip l = l) :
    lstrip (rstripWS l) = rstripWS l := by
  have hp : rstripWS l <+: l := List.rdropWhile_prefix _ _
  cases hl : rstripWS l with
  | nil => rfl
  | cons c t =>
    rw [hl] at hp
    obtain ⟨r, hr⟩ := hp
    have hcl : l = c :: (t ++ r) := by rw [← hr]; simp
    have hc : pySpace c = false := by
      unfold lstrip at h
      rw [hcl, List.dropWhile_eq_self_iff] at h
      have := h (by simp)
      simpa using this
    unfold lstrip
    rw [List.dropWhile_cons, hc]
    simp

theorem pyStrip_idem (l : List Nat) : pyStrip (pyStrip l) = pyStrip l := by
  unfold pyStrip
  rw [lstrip_rstripWS (lstrip l) (lstrip_idem l), rstripWS_idem]

theorem pyIn_infix_iff {pat l : List Nat} : pyIn pat l = true ↔ pat <:+: l := by
  induction l with
  | nil =>
    simp [pyIn]
  | cons c t ih =>
    simp only [pyIn, Bool.or_eq_true, List.isPrefixOf_iff_prefix, ih]
    exact (List.infix_cons_iff).symm

theorem pyIn_singleton {c : Nat} {l : List Nat} : pyIn [c] l = true ↔ c ∈ l := by
  rw [pyIn_infix_iff]
  constructor
  · intro h
    exact h.subset (by simp)
  · intro h
    obtain ⟨s, t, rfl⟩ := List.append_of_mem h
    exact ⟨s, t, by simp⟩

theorem mem_pyUpper_semi {l : List Nat} : 59 ∈ pyUpper l ↔ 59 ∈ l := by
  unfold pyUpper
  simp only [List.mem_map]
  constructor
  · rintro ⟨a, ha, hu⟩
    rwa [upperChar_eq_semi.mp hu] at ha
  · intro h
    exact ⟨59, h, rfl⟩

/-! ### Claims C2 and C3 (guardrail policy) -/

/-- Claim C2, counterexample: the statement `"SELECT 1;;"` contains a `;`
other than as exactly one trailing terminator (it ends in two semicolons),
yet `validate_sql` does not block it — `rstrip(";")` removes the whole
trailing run of semicolons, so a doubled terminator escapes the check. -/
theorem validate_sql_double_semi_not_blocked :
    pyIn (pyStr ";") (stripOneTrailingSemi (pyStrip (pyStr "SELECT 1;;"))) = true ∧
    (validate_sql (pyStr "SELECT 1;;")).block_execution = false ∧
    (validate_sql (pyStr "SELECT 1;;")).is_safe = true := by
  decide

/-- Claim C2 (amended): if a `;` survives after stripping surrounding
whitespace and the whole trailing run of semicolons, `validate_sql` blocks
the statement and emits the multiple-statements warning. (A statement whose
only semicolons form a trailing run — of any length — is not blocked.) -/
theorem validate_sql_blocks_residual_semicolon (s : List Nat)
    (h : pyIn (pyStr ";") (rstripSemi (pyStrip s)) = true) :
    (validate_sql s).block_execution = true ∧
      multiStmtWarning ∈ (validate_sql s).warnings := by
  have hsemi : pyStr ";" = [59] := rfl
  have hmulti : pyIn (pyStr ";") (rstripSemi (pyStrip (pyUpper (pyStrip s)))) = true := by
    rw [pyStrip_pyUpper, pyStrip_idem, rstripSemi_pyUpper, hsemi, pyIn_singleton,
      mem_pyUpper_semi]
    rw [hsemi, pyIn_singleton] at h
    exact h
  dsimp only [validate_sql]
  rw [hmulti]
  refine ⟨by simp, ?_⟩
  simp

/-- Witness for `validate_sql_blocks_residual_semicolon` at the concrete
statement `"SELECT 1; SELECT 2;"`. -/
theorem validate_sql_blocks_residual_semicolon_witness :
    (validate_sql (pyStr "SELECT 1; SELECT 2;")).block_execution = true ∧
      multiStmtWarning ∈ (validate_sql (pyStr "SELECT 1; SELECT 2;")).warnings :=
  validate_sql_blocks_residual_semicolon (pyStr "SELECT 1; SELECT 2;") (by decide)

/-- Claim C3, counterexample: the statement `"TRUNCATE"` does not begin with
`SELECT` and contains the mutating keyword `TRUNCATE` as a whole word (as the
final — and only — token), yet `validate_sql` returns no warning and does not
block: every block-list entry carries a trailing space (`"TRUNCATE "`), so a
keyword that ends the statement is never matched. -/
theorem validate_sql_final_keyword_not_blocked :
    startsWith (pyStr "SELECT") (pyUpper (pyStrip (pyStr "TRUNCATE"))) = false ∧
    (validate_sql (pyStr "TRUNCATE")) =
      { is_safe := true, warnings := [], block_execution := false } := by
  decide

/-- Claim C3 (amended): if the statement (stripped, upper-cased) does not
begin with `SELECT` and contains one of the eleven block-list entries — the
keyword followed by a space — then `validate_sql` blocks it and emits a
warning naming the keyword. -/
theorem validate_sql_blocks_keyword_followed_by_space (s kw : List Nat)
    (hkw : kw ∈ dangerousKeywords)
    (hsel : startsWith (pyStr "SELECT") (pyUpper (pyStrip s)) = false)
    (hin : pyIn kw (pyUpper (pyStrip s)) = true) :
    (validate_sql s).block_execution = true ∧
      (pyStr "Detected dangerous keyword: " ++ pyStrip kw) ∈ (validate_sql s).warnings := by
  dsimp only [validate_sql]
  rw [hsel]
  have hmem : kw ∈ dangerousKeywords.filter (fun kw => pyIn kw (pyUpper (pyStrip s))) :=
    List.mem_filter.mpr ⟨hkw, hin⟩
  have hne : dangerousKeywords.filter (fun kw => pyIn kw (pyUpper (pyStrip s))) ≠ [] :=
    List.ne_nil_of_mem hmem
  constructor
  · simp [hne]
  · refine List.mem_append_left _ ?_
    exact List.mem_map.mpr ⟨kw, hmem, rfl⟩

/-- Witness for `validate_sql_blocks_keyword_followed_by_space` at the
concrete statement `"DROP TABLE users"` and keyword `"DROP "`. -/
theorem validate_sql_blocks_keyword_followed_by_space_witness :
    (validate_sql (pyStr "DROP TABLE users")).block_execution = true ∧
      (pyStr "Detected dangerous keyword: " ++ pyStrip (pyStr "DROP ")) ∈
        (validate_sql (pyStr "DROP TABLE users")).warnings :=
  validate_sql_blocks_keyword_followed_by_space (pyStr "DROP TABLE users") (pyStr "DROP ")
    (by decide) (by decide) (by decide)

/-! ### Schema discovery (`services/sql/schema_discovery.py`) -/

/-- One column of an introspected or normalized schema (the keys produced by
`_introspect_schema` and rebuilt by the fallback in `_normalize_with_ai`). -/
structure Column where
  name : List Nat
  type : List Nat
  nullable : Bool
  primary_key : Bool
  unique : Bool
deriving DecidableEq

/-- One table of a schema. -/
structure Table where
  schema : List Nat
  name : List Nat
  columns : List Column
deriving DecidableEq

/-- A schema document: what `_introspect_schema` returns and what
`_normalize_with_ai` produces. -/
structure Schema where
  database : List Nat
  tables : List Table
deriving DecidableEq

/-- Table names of a schema, in order. -/
def tableNames (s : Schema) : List (List Nat) := s.tables.map Table.name

/-- Column names of one table. -/
def columnNames (t : Table) : List (List Nat) := t.columns.map Column.name

/-- Python `set(a) != set(b)` on name lists, negated: the two lists contain
the same names as sets. -/
def setEqNames (a b : List (List Nat)) : Bool :=
  a.all (fun x => b.contains x) && b.all (fun x => a.contains x)

/-- The fallback structure `_normalize_with_ai` rebuilds from the raw schema
when the table-name check fails (every field copied from the raw entry). -/
def fallbackSchema (raw : Schema) : Schema :=
  { database := raw.database
    tables := raw.tables.map (fun t =>
      { schema := t.schema
        name := t.name
        columns := t.columns.map (fun c =>
          { name := c.name
            type := c.type
            nullable := c.nullable
            primary_key := c.primary_key
            unique := c.unique }) }) }

/-- `SchemaDiscoveryService._normalize_with_ai`: `ai` is the model reply
parsed as a schema (`none` models a `json.loads` failure, which falls back to
a copy of the raw structure). The anti-hallucination check compares only the
sets of table names; on empty or mismatching table names the raw structure is
rebuilt. -/
def normalize_with_ai (raw : Schema) (ai : Option Schema) : Schema :=
  let normalized := match ai with
    | some s => s
    | none => { database := raw.database, tables := raw.tables }
  let raw_tables := raw.tables.map Table.name
  let norm_tables := normalized.tables.map Table.name
  if norm_tables.isEmpty || !setEqNames norm_tables raw_tables then fallbackSchema raw
  else normalized

theorem fallbackSchema_eq (raw : Schema) : fallbackSchema raw = raw := by
  unfold fallbackSchema
  cases raw with
  | mk db ts =>
    simp only [Schema.mk.injEq, true_and]
    have hcols : ∀ t : Table,
        (t.columns.map (fun c : Column =>
          { name := c.name, type := c.type, nullable := c.nullable,
            primary_key := c.primary_key, unique := c.unique : Column })) = t.columns := by
      intro t
      have : (fun c : Column =>
          { name := c.name, type := c.type, nullable := c.nullable,
            primary_key := c.primary_key, unique := c.unique : Column }) = fun c => c := by
        funext c
        cases c
        rfl
      rw [this, List.map_id']
    have htab : (fun t : Table =>
        { schema := t.schema, name := t.name,
          columns := t.columns.map (fun c : Column =>
            { name := c.name, type := c.type, nullable := c.nullable,
              primary_key := c.primary_key, unique := c.unique : Column }) : Table }) =
        fun t => t := by
      funext t
      cases t with
      | mk s n cs =>
        simp only [Table.mk.injEq, true_and]
        exact hcols ⟨s, n, cs⟩
    rw [htab, List.map_id']

theorem setEqNames_refl (a : List (List Nat)) : setEqNames a a = true := by
  unfold setEqNames
  simp only [Bool.and_self, List.all_eq_true]
  intro x hx
  exact List.elem_eq_true_of_mem hx

theorem setEqNames_mem {a b : List (List Nat)} (h : setEqNames a b = true) {x : List Nat} :
    x ∈ a ↔ x ∈ b := by
  unfold setEqNames at h
  rw [Bool.and_eq_true, List.all_eq_true, List.all_eq_true] at h
  constructor
  · intro hx
    exact List.mem_of_elem_eq_true (h.1 x hx)
  · intro hx
    exact List.mem_of_elem_eq_true (h.2 x hx)

/-- A raw schema with a single table `t` whose only column is `a`. -/
def rawSchemaEx : Schema :=
  { database := pyStr "db"
    tables := [{ schema := pyStr "public", name := pyStr "t",
                 columns := [{ name := pyStr "a", type := pyStr "text",
                               nullable := true, primary_key := false, unique := false }] }] }

/-- A model reply for `rawSchemaEx` keeping the table name but renaming the
column to `b` — a hallucinated column the check does not catch. -/
def aiSchemaEx : Schema :=
  { database := pyStr "db"
    tables := [{ schema := pyStr "public", name := pyStr "t",
                 columns := [{ name := pyStr "b", type := pyStr "text",
                               nullable := true, primary_key := false, unique := false }] }] }

/-- A model reply for `rawSchemaEx` that renames the table to `u` — a
table-name mismatch the check does catch. -/
def mismatchSchemaEx : Schema :=
  { database := pyStr "db"
    tables := [{ schema := pyStr "public", name := pyStr "u",
                 columns := [{ name := pyStr "a", type := pyStr "text",
                               nullable := true, primary_key := false, unique := false }] }] }

/-- Claim C1, counterexample: the anti-hallucination check in
`_normalize_with_ai` compares only table names, never column names. A model
reply with the right table name but a renamed column is accepted verbatim,
so the returned snapshot's column-name sets differ from the raw schema's. -/
theorem normalize_with_ai_accepts_renamed_columns :
    normalize_with_ai rawSchemaEx (some aiSchemaEx) = aiSchemaEx ∧
    tableNames (normalize_with_ai rawSchemaEx (some aiSchemaEx)) = tableNames rawSchemaEx ∧
    (normalize_with_ai rawSchemaEx (some aiSchemaEx)).tables.map columnNames ≠
      rawSchemaEx.tables.map columnNames := by
  decide

/-- Claim C1 (amended): for every raw schema and model reply, the set of
table names of the normalized snapshot equals the set of table names of the
raw schema; a parse failure returns the raw structure, and so does a reply
whose table names are missing or mismatch the raw schema's (the rebuilt
fallback coincides with the raw structure); column names are not validated
(see `normalize_with_ai_accepts_renamed_columns`). -/
theorem normalize_with_ai_table_names (raw : Schema) (ai : Option Schema) (n : List Nat)
    (s : Schema) :
    (n ∈ tableNames (normalize_with_ai raw ai) ↔ n ∈ tableNames raw) ∧
      normalize_with_ai raw none = raw ∧
      (tableNames s = [] ∨ setEqNames (tableNames s) (tableNames raw) = false →
        normalize_with_ai raw (some s) = raw) := by
  refine ⟨?_, ?_, ?_⟩
  · unfold normalize_with_ai
    dsimp only
    split
    · rw [fallbackSchema_eq]
    · rename_i hcond
      simp only [Bool.or_eq_true, Bool.not_eq_true', not_or, List.isEmpty_eq_true,
        Bool.not_eq_true, Bool.not_eq_false] at hcond
      exact setEqNames_mem hcond.2
  · unfold normalize_with_ai
    dsimp only
    simp only [setEqNames_refl, Bool.not_true, Bool.or_false]
    cases hemp : (raw.tables.map Table.name).isEmpty with
    | true => simp [fallbackSchema_eq]
    | false =>
      simp only [Bool.false_eq_true, if_false]
  · intro hs
    unfold tableNames at hs
    rcases hs with hs | hs
    · unfold normalize_with_ai
      dsimp only
      simp [hs, fallbackSchema_eq]
    · unfold normalize_with_ai
      dsimp only
      simp [hs, fallbackSchema_eq]

/-- Witness for `normalize_with_ai_table_names` at a reply whose table name
mismatches the raw schema (`t` renamed to `u`): normalization falls back to
the raw structure. -/
theorem normalize_with_ai_table_names_witness :
    (pyStr "t" ∈ tableNames (normalize_with_ai rawSchemaEx (some mismatchSchemaEx)) ↔
      pyStr "t" ∈ tableNames rawSchemaEx) ∧
    normalize_with_ai rawSchemaEx none = rawSchemaEx ∧
    normalize_with_ai rawSchemaEx (some mismatchSchemaEx) = rawSchemaEx :=
  ⟨(normalize_with_ai_table_names rawSchemaEx (some mismatchSchemaEx) (pyStr "t")
      mismatchSchemaEx).1,
   (normalize_with_ai_table_names rawSchemaEx (some mismatchSchemaEx) (pyStr "t")
      mismatchSchemaEx).2.1,
   (normalize_with_ai_table_names rawSchemaEx (some mismatchSchemaEx) (pyStr "t")
      mismatchSchemaEx).2.2 (Or.inr (by decide))⟩

/-! ### Query executor (`services/sql/executor.py`) -/

/-- Decimal digits of a number, as codepoints (Python `str(int)` inside the
not-found f-string). -/
def natRepr (n : Nat) : List Nat := (Nat.toDigits 10 n).map Char.toNat

/-- Result model of `execute_sql` (`QueryExecutionResponse`); each row is
the dict built by zipping the column names with the row values (values
abstracted to `Nat`). -/
structure QueryExecutionResponse where
  success : Bool
  rows : List (List ((List Nat) × Nat))
  columns : List (List Nat)
  row_count : Nat
  execution_time_ms : Nat
  sql_executed : List Nat
  warnings : List (List Nat)
  error : Option (List Nat)
deriving DecidableEq

/-- What the target engine reports for one executed statement: whether it
returns rows, the result keys, and the streamed rows. -/
structure EngineRows where
  returns_rows : Bool
  keys : List (List Nat)
  rows : List (List Nat)
deriving DecidableEq

/-- The target database, abstracted: maps a connection string and a
statement to either an `SQLAlchemyError` message or a result stream. -/
def Engine := List Nat → List Nat → Except (List Nat) EngineRows

/-- `SQLExecutorService._get_connection_string`: look the connection up in
the store (id to connection string); `ValueError` (the error branch) when it
is missing. -/
def get_connection_string (store : List (Nat × List Nat)) (connection_id : Nat) :
    Except (List Nat) (List Nat) :=
  match store.find? (fun p => p.1 == connection_id) with
  | some p => .ok p.2
  | none => .error (pyStr "Connection id " ++ natRepr connection_id ++ pyStr " not found")

/-- The row loop of `execute_sql`: append the dict for each streamed row,
increment the counter, and break once `count >= max_rows` — the check runs
after the append, so a zero cap still yields one row. -/
def rowsLoop (keys : List (List Nat)) (max_rows : Nat) :
    List (List Nat) → Nat → List (List ((List Nat) × Nat))
  | [], _ => []
  | r :: rest, count =>
    let d := keys.zip r
    if max_rows ≤ count + 1 then [d] else d :: rowsLoop keys max_rows rest (count + 1)

/-- `SQLExecutorService.execute_sql`. `timeout_seconds` is accepted with its
source default and, exactly as in the source, never read. `elapsed_fail` and
`elapsed_ok` stand for the wall-clock measurements of the two exits. A
`ValueError` from the connection lookup propagates (`.error`); an engine
failure (`SQLAlchemyError`) is caught and becomes a structured failure
response. -/
def execute_sql (store : List (Nat × List Nat)) (engine : Engine)
    (elapsed_fail elapsed_ok : Nat) (sql : List Nat) (connection_id : Nat)
    (timeout_seconds : Nat := 30) (max_rows : Nat := 1000) :
    Except (List Nat) QueryExecutionResponse :=
  match get_connection_string store connection_id with
  | .error e => .error e
  | .ok conn_str =>
    match engine conn_str sql with
    | .error e =>
      .ok { success := false, rows := [], columns := [], row_count := 0,
            execution_time_ms := elapsed_fail, sql_executed := sql,
            warnings := [], error := some e }
    | .ok r =>
      let columns := if r.returns_rows then r.keys else []
      let rows := if r.returns_rows then rowsLoop r.keys max_rows r.rows 0 else []
      .ok { success := true, rows := rows, columns := columns,
            row_count := rows.length, execution_time_ms := elapsed_ok,
            sql_executed := sql, warnings := [], error := none }

theorem rowsLoop_length_le (keys : List (List Nat)) (mr : Nat) (rs : List (List Nat))
    (count : Nat) (h : count < mr) :
    (rowsLoop keys mr rs count).length ≤ mr - count := by
  induction rs generalizing count with
  | nil => simp [rowsLoop]
  | cons r rest ih =>
    unfold rowsLoop
    dsimp only
    split
    · simp only [List.length_singleton]
      omega
    · rename_i hle
      simp only [List.length_cons]
      have := ih (count + 1) (by omega)
      omega

theorem rowsLoop_length_eq (keys : List (List Nat)) (mr : Nat) (rs : List (List Nat))
    (count : Nat) (h : count < mr) (hlen : mr - count ≤ rs.length) :
    (rowsLoop keys mr rs count).length = mr - count := by
  induction rs generalizing count with
  | nil =>
    simp only [List.length_nil] at hlen
    omega
  | cons r rest ih =>
    unfold rowsLoop
    dsimp only
    split
    · simp only [List.length_singleton]
      omega
    · rename_i hle
      simp only [List.length_cons]
      simp only [List.length_cons] at hlen
      rw [ih (count + 1) (by omega) (by omega)]
      omega

/-- Claim C4: every engine error inside the `try` block of `execute_sql`
yields a returned (not raised) response with `success = false`, empty rows
and columns, `row_count = 0`, the error message set, the elapsed time of the
failing exit, and the submitted statement echoed verbatim. -/
theorem execute_sql_engine_error (store : List (Nat × List Nat)) (engine : Engine)
    (elapsed_fail elapsed_ok : Nat) (sql : List Nat) (connection_id : Nat)
    (timeout_seconds max_rows : Nat) (conn_str e : List Nat)
    (hcs : get_connection_string store connection_id = .ok conn_str)
    (herr : engine conn_str sql = .error e) :
    execute_sql store engine elapsed_fail elapsed_ok sql connection_id
        timeout_seconds max_rows =
      .ok { success := false, rows := [], columns := [], row_count := 0,
            execution_time_ms := elapsed_fail, sql_executed := sql,
            warnings := [], error := some e } := by
  unfold execute_sql
  rw [hcs]
  dsimp only
  rw [herr]

/-- Witness for `execute_sql_engine_error` on a one-connection store and an
engine that always fails. -/
theorem execute_sql_engine_error_witness :
    execute_sql [(1, pyStr "postgresql://db")]
        (fun _ _ => .error (pyStr "relation missing"))
        7 9 (pyStr "SELECT * FROM t;") 1 30 1000 =
      .ok { success := false, rows := [], columns := [], row_count := 0,
            execution_time_ms := 7, sql_executed := pyStr "SELECT * FROM t;",
            warnings := [], error := some (pyStr "relation missing") } :=
  execute_sql_engine_error [(1, pyStr "postgresql://db")]
    (fun _ _ => .error (pyStr "relation missing")) 7 9 (pyStr "SELECT * FROM t;")
    1 30 1000 (pyStr "postgresql://db") (pyStr "relation missing") rfl rfl

/-- Claim C7: on the success path `row_count` equals `len(rows)` and, for a
positive cap (all call sites pass `settings.max_rows_returned` or the
default 1000), `row_count ≤ max_rows`; when the engine streams at least
`max_rows` rows the loop stops exactly at `max_rows` with `success = true`. -/
theorem execute_sql_row_cap (store : List (Nat × List Nat)) (engine : Engine)
    (elapsed_fail elapsed_ok : Nat) (sql : List Nat) (connection_id : Nat)
    (timeout_seconds max_rows : Nat) (conn_str : List Nat) (r : EngineRows)
    (hmr : 1 ≤ max_rows)
    (hcs : get_connection_string store connection_id = .ok conn_str)
    (hr : engine conn_str sql = .ok r) :
    ∃ resp, execute_sql store engine elapsed_fail elapsed_ok sql connection_id
        timeout_seconds max_rows = .ok resp ∧
      resp.success = true ∧
      resp.row_count = resp.rows.length ∧
      resp.row_count ≤ max_rows ∧
      (r.returns_rows = true → max_rows ≤ r.rows.length → resp.row_count = max_rows) := by
  unfold execute_sql
  rw [hcs]
  dsimp only
  rw [hr]
  refine ⟨_, rfl, rfl, rfl, ?_, ?_⟩
  · cases hret : r.returns_rows with
    | false => simp
    | true =>
      simp only [if_true]
      have := rowsLoop_length_le r.keys max_rows r.rows 0 (by omega)
      omega
  · intro hret hlen
    rw [hret]
    simp only [if_true]
    rw [rowsLoop_length_eq r.keys max_rows r.rows 0 (by omega) (by omega)]
    omega

/-- Witness for `execute_sql_row_cap`: three streamed rows against a cap of
two produce exactly two rows. -/
theorem execute_sql_row_cap_witness :
    ∃ resp, execute_sql [(1, pyStr "postgresql://db")]
        (fun _ _ => .ok { returns_rows := true, keys := [pyStr "id"],
                          rows := [[5], [6], [7]] })
        7 9 (pyStr "SELECT id FROM t;") 1 30 2 = .ok resp ∧
      resp.success = true ∧
      resp.row_count = resp.rows.length ∧
      resp.row_count ≤ 2 ∧
      ((true : Bool) = true → 2 ≤ ([[5], [6], [7]] : List (List Nat)).length →
        resp.row_count = 2) :=
  execute_sql_row_cap [(1, pyStr "postgresql://db")]
    (fun _ _ => .ok { returns_rows := true, keys := [pyStr "id"], rows := [[5], [6], [7]] })
    7 9 (pyStr "SELECT id FROM t;") 1 30 2 (pyStr "postgresql://db")
    { returns_rows := true, keys := [pyStr "id"], rows := [[5], [6], [7]] }
    (by omega) rfl rfl

/-- Claim C8: `execute_sql` never reads `timeout_seconds` — for identical
store, engine and arguments the result is literally identical for any two
timeout values, so execution is not bounded by the caller-supplied or
default timeout at all. -/
theorem execute_sql_ignores_timeout (store : List (Nat × List Nat)) (engine : Engine)
    (elapsed_fail elapsed_ok : Nat) (sql : List Nat) (connection_id : Nat)
    (t1 t2 max_rows : Nat) :
    execute_sql store engine elapsed_fail elapsed_ok sql connection_id t1 max_rows =
      execute_sql store engine elapsed_fail elapsed_ok sql connection_id t2 max_rows := rfl

/-! ### Snapshot persistence (`discover_and_save` and the
`schema_snapshots` table) -/

/-- A persisted snapshot row (`db/models/schema_snapshot.py`). -/
structure SnapshotRec where
  connection_id : Nat
  name : List Nat
  schema_json : Schema
deriving DecidableEq

/-- `SchemaDiscoveryService.discover_and_save` in state-passing form: the
raw introspected schema and the model reply give `normalized`; the session
query either updates the matching row's `schema_json` in place or adds a new
row. -/
def discover_and_save (state : List SnapshotRec) (connection_id : Nat)
    (raw : Schema) (ai : Option Schema) : List SnapshotRec :=
  let normalized := normalize_with_ai raw ai
  if state.any (fun rec => rec.connection_id == connection_id) then
    state.map (fun rec =>
      if rec.connection_id == connection_id then { rec with schema_json := normalized }
      else rec)
  else
    state ++ [{ connection_id := connection_id, name := normalized.database,
                schema_json := normalized }]

/-- Number of stored snapshots for one connection id. -/
def countId (state : List SnapshotRec) (cid : Nat) : Nat :=
  (state.filter (fun rec => rec.connection_id == cid)).length

/-- Any sequence of discovery runs, starting from an empty snapshot table. -/
def runDiscoveries (ops : List (Nat × Schema × Option Schema)) : List SnapshotRec :=
  ops.foldl (fun st op => discover_and_save st op.1 op.2.1 op.2.2) []

theorem countId_discover_and_save (state : List SnapshotRec) (cid : Nat)
    (raw : Schema) (ai : Option Schema) (c : Nat) (h : countId state c ≤ 1) :
    countId (discover_and_save state cid raw ai) c ≤ 1 := by
  unfold discover_and_save
  dsimp only
  split
  · rename_i hany
    have hmap : countId (state.map (fun rec =>
        if rec.connection_id == cid then { rec with schema_json := normalize_with_ai raw ai }
        else rec)) c = countId state c := by
      unfold countId
      rw [List.filter_map]
      have hpred : ((fun rec : SnapshotRec => rec.connection_id == c) ∘
          (fun rec : SnapshotRec =>
            if rec.connection_id == cid then { rec with schema_json := normalize_with_ai raw ai }
            else rec)) = fun rec : SnapshotRec => rec.connection_id == c := by
        funext rec
        by_cases hrec : rec.connection_id = cid <;> simp [hrec]
      rw [hpred, List.length_map]
    rw [hmap]
    exact h
  · rename_i hany
    unfold countId
    rw [List.filter_append]
    simp only [List.length_append]
    by_cases hc : cid = c
    · subst hc
      have h0 : state.filter (fun rec => rec.connection_id == cid) = [] := by
        rw [List.filter_eq_nil_iff]
        intro rec hrec hbeq
        exact hany (List.any_eq_true.mpr ⟨rec, hrec, hbeq⟩)
      rw [h0]
      simp
    · have hb : (cid == c) = false := by
        simp [hc]
      have h1 : List.filter (fun rec => rec.connection_id == c)
          [{ connection_id := cid, name := (normalize_with_ai raw ai).database,
             schema_json := normalize_with_ai raw ai : SnapshotRec }] = [] := by
        simp [List.filter, hb]
      rw [h1]
      unfold countId at h
      simpa using h

theorem countId_foldl_discoveries (ops : List (Nat × Schema × Option Schema))
    (state : List SnapshotRec) (h : ∀ c, countId state c ≤ 1) (c : Nat) :
    countId (ops.foldl (fun st op => discover_and_save st op.1 op.2.1 op.2.2) state) c ≤ 1 := by
  induction ops generalizing state with
  | nil => exact h c
  | cons op rest ih =>
    simp only [List.foldl_cons]
    exact ih _ (fun c => countId_discover_and_save _ _ _ _ c (h c))

/-- Claim C9: starting from an empty snapshot table, after any sequence of
`discover_and_save` runs there is at most one stored snapshot per connection
id — a repeated discovery updates the matching row in place instead of
appending a second one. -/
theorem discover_and_save_at_most_one (ops : List (Nat × Schema × Option Schema)) (c : Nat) :
    countId (runDiscoveries ops) c ≤ 1 := by
  unfold runDiscoveries
  exact countId_foldl_discoveries ops [] (fun c => by simp [countId]) c

/-! ### SQL generation (`services/sql/sql_chain.py`, `generate_sql`)

The sanitization pipeline applied to the raw model reply. The regular
expressions of the source are modelled directly: a fenced block is the
shortest span between a pair of triple-backtick markers, the statement
extraction takes the first case-insensitive `select` up to the next `;` or
the end, and the rewrite pattern is matched left-to-right without overlap.
Character classes are modelled on their ASCII ranges, which cover every
character the surrounding code or the proved properties distinguish. -/

/-- Split at the first occurrence of `pat`: `some (pre, post)` with
`l = pre ++ pat ++ post` and no earlier occurrence. -/
def splitFirst (pat : List Nat) : List Nat → Option (List Nat × List Nat)
  | [] => if pat.isEmpty then some ([], []) else none
  | c :: t =>
    if pat.isPrefixOf (c :: t) then some ([], (c :: t).drop pat.length)
    else match splitFirst pat t with
      | some (pre, post) => some (c :: pre, post)
      | none => none

/-- The triple-backtick fence marker. -/
def fenceMarker : List Nat := [96, 96, 96]

/-- `re.sub(r"` ``` `[\s\S]*?` ``` `", " ", text)`: repeatedly replace the
leftmost complete fenced block by one space, continuing after it; an
unmatched opening fence is left alone. Fuel bounds the recursion (each
replacement consumes the block). -/
def removeFencesAux : Nat → List Nat → List Nat
  | 0, l => l
  | fuel + 1, l =>
    match splitFirst fenceMarker l with
    | none => l
    | some (pre, rest) =>
      match splitFirst fenceMarker rest with
      | none => l
      | some (_, post) => pre ++ [32] ++ removeFencesAux fuel post

/-- Fenced-block removal with sufficient fuel. -/
def removeFences (l : List Nat) : List Nat := removeFencesAux l.length l

/-- `text.replace("` ` `", " ")`. -/
def removeBackticks (l : List Nat) : List Nat := l.map (fun n => if n = 96 then 32 else n)

/-- `text_only` of `generate_sql`: the stripped reply with fenced blocks and
backticks removed. -/
def textOnly (content : List Nat) : List Nat :=
  removeBackticks (removeFences (pyStrip content))

/-- Case-insensitive `startswith` for a lowercase ASCII pattern — the
`(?i)` literals of the source's regular expressions. -/
def caseStarts (pat : String) (l : List Nat) : Bool :=
  (pyStr pat).isPrefixOf (pyLower l)

/-- `re.search(r"(?is)(select[\s\S]*?)(;|$)", text)`, group 1: from the
first case-insensitive `select` up to (excluding) the first `;` at or after
its end, or to the end of the string; `none` when no `select` occurs. -/
def selectMatch : List Nat → Option (List Nat)
  | [] => none
  | c :: t =>
    if caseStarts "select" (c :: t) then
      some ((c :: t).take 6 ++ ((c :: t).drop 6).takeWhile (fun n => !(n == 59)))
    else selectMatch t

/-- `text.split(';')[0]`. -/
def splitSemiHead (l : List Nat) : List Nat := l.takeWhile (fun n => !(n == 59))

/-- `[\w\.\"]` — ASCII word characters plus `.` and `"`. -/
def isColChar (n : Nat) : Bool :=
  decide ((48 ≤ n ∧ n ≤ 57) ∨ (65 ≤ n ∧ n ≤ 90) ∨ (97 ≤ n ∧ n ≤ 122) ∨
    n = 95 ∨ n = 46 ∨ n = 34)

/-- `[a-z]` under the `(?i)` flag — ASCII letters of either case. -/
def isLetter (n : Nat) : Bool := decide ((65 ≤ n ∧ n ≤ 90) ∨ (97 ≤ n ∧ n ≤ 122))

/-- Try `(?i)where\s+([\w\.\"]+)\s*=\s*'([a-z]+)'` at the head of `l`; on a
match return the column group, the value group, and the rest of the input
after the closing quote. Greedy matching of each piece is forced — no
backtracking can succeed — because each character class excludes the
delimiter that follows it. -/
def matchWhereEq (l : List Nat) : Option (List Nat × List Nat × List Nat) :=
  if caseStarts "where" l then
    if ((l.drop 5).takeWhile pySpace).isEmpty then none
    else if (((l.drop 5).dropWhile pySpace).takeWhile isColChar).isEmpty then none
    else
      match (((l.drop 5).dropWhile pySpace).dropWhile isColChar).dropWhile pySpace with
      | 61 :: l4 =>
        match l4.dropWhile pySpace with
        | 39 :: l5 =>
          if (l5.takeWhile isLetter).isEmpty then none
          else
            match l5.dropWhile isLetter with
            | 39 :: rest =>
              some (((l.drop 5).dropWhile pySpace).takeWhile isColChar,
                    l5.takeWhile isLetter, rest)
            | _ => none
        | _ => none
      | _ => none
  else none

/-- `re.sub` for the rewrite pattern (`_fix_case_insensitive`): scan left to
right, replacing each non-overlapping match by `WHERE <col> ILIKE '<val>'`
and continuing after it. Fuel is the input length. -/
def fixCIAux : Nat → List Nat → List Nat
  | 0, l => l
  | _ + 1, [] => []
  | fuel + 1, c :: t =>
    match matchWhereEq (c :: t) with
    | some (col, v, rest) =>
      pyStr "WHERE " ++ col ++ pyStr " ILIKE " ++ [39] ++ v ++ [39] ++ fixCIAux fuel rest
    | none => c :: fixCIAux fuel t

/-- `_fix_case_insensitive` with sufficient fuel. -/
def fixCaseInsensitive (l : List Nat) : List Nat := fixCIAux l.length l

/-- The sanitization pipeline of `SQLGenerationService.generate_sql`, from
the raw model reply to the `sql` field of the returned `QueryResponse`:
strip, drop fenced blocks and backticks, extract the first SELECT statement
(`text.split(';')[0]` when the search fails), substitute the inert fallback
`SELECT 1;` when the extract does not start with `select`, otherwise
normalize the trailing semicolon, and finally apply the case-insensitivity
rewrite. -/
def generate_sql_text (content : List Nat) : List Nat :=
  let text_only := textOnly content
  let sql_text := match selectMatch text_only with
    | some g => pyStrip g
    | none => pyStrip (splitSemiHead text_only)
  let sql_text2 := if !(caseStarts "select" sql_text) then pyStr "SELECT 1;"
    else rstripSemi sql_text ++ [59]
  fixCaseInsensitive sql_text2

/-! ### Lemmas about the extraction pipeline -/

theorem pyIn_cons {pat : List Nat} {c : Nat} {t : List Nat} (h : pyIn pat t = true) :
    pyIn pat (c :: t) = true := by
  unfold pyIn
  rw [h]
  simp

theorem take_lower_eq_of_prefix (pat : List Nat) :
    ∀ g : List Nat, pat.isPrefixOf (pyLower g) = true →
      (g.take pat.length).map lowerChar = pat := by
  induction pat with
  | nil =>
    intro g _
    simp
  | cons p ps ih =>
    intro g h
    cases g with
    | nil => simp [pyLower, List.isPrefixOf] at h
    | cons c g' =>
      simp only [pyLower, List.map_cons, List.isPrefixOf, Bool.and_eq_true, beq_iff_eq] at h
      simp only [List.length_cons, List.take_succ_cons, List.map_cons, List.cons.injEq]
      exact ⟨h.1.symm, ih g' h.2⟩

theorem upperChar_of_lowerChar {c x : Nat} (hx : 97 ≤ x ∧ x ≤ 122) (h : lowerChar c = x) :
    upperChar c = x - 32 := by
  unfold lowerChar at h
  unfold upperChar
  split at h <;> split <;> omega

theorem upper_prefix_of_lower_prefix (pat : List Nat) (hpat : ∀ x ∈ pat, 97 ≤ x ∧ x ≤ 122) :
    ∀ g : List Nat, pat.isPrefixOf (pyLower g) = true →
      (pat.map (fun x => x - 32)).isPrefixOf (pyUpper g) = true := by
  induction pat with
  | nil =>
    intro g _
    simp [List.isPrefixOf]
  | cons p ps ih =>
    intro g h
    cases g with
    | nil => simp [pyLower, List.isPrefixOf] at h
    | cons c g' =>
      simp only [pyLower, List.map_cons, List.isPrefixOf, Bool.and_eq_true, beq_iff_eq] at h
      simp only [pyUpper, List.map_cons, List.isPrefixOf, Bool.and_eq_true, beq_iff_eq]
      refine ⟨?_, ih (fun x hx => hpat x (by simp [hx])) g' h.2⟩
      rw [upperChar_of_lowerChar (hpat p (by simp)) h.1.symm]

theorem selectMatch_pyIn {l g : List Nat} (h : selectMatch l = some g) :
    pyIn (pyStr "select") (pyLower l) = true := by
  induction l with
  | nil => simp [selectMatch] at h
  | cons c t ih =>
    unfold selectMatch at h
    split at h
    · rename_i hcs
      unfold caseStarts at hcs
      rw [pyIn_infix_iff]
      exact (List.isPrefixOf_iff_prefix.mp hcs).isInfix
    · have hrec := ih h
      show pyIn (pyStr "select") (lowerChar c :: pyLower t) = true
      exact pyIn_cons hrec

theorem selectMatch_no_semi {l g : List Nat} (h : selectMatch l = some g) : 59 ∉ g := by
  induction l with
  | nil => simp [selectMatch] at h
  | cons c t ih =>
    unfold selectMatch at h
    split at h
    · rename_i hcs
      injection h with h
      subst h
      intro hmem
      rcases List.mem_append.mp hmem with h6 | htw
      · unfold caseStarts at hcs
        have hmap := take_lower_eq_of_prefix (pyStr "select") (c :: t) hcs
        have : lowerChar 59 ∈ (pyStr "select") := by
          rw [← hmap]
          exact List.mem_map_of_mem lowerChar h6
        simp [pyStr, lowerChar] at this
      · have := List.mem_takeWhile_imp htw
        simp at this
    · exact ih h

theorem fixCIAux_nil (f : Nat) : fixCIAux f [] = [] := by
  cases f <;> rfl

theorem matchWhereEq_none_of_head {c : Nat} {t : List Nat} (h : lowerChar c ≠ 119) :
    matchWhereEq (c :: t) = none := by
  unfold matchWhereEq
  have hcs : caseStarts "where" (c :: t) = false := by
    show (List.isPrefixOf [119, 104, 101, 114, 101] (lowerChar c :: List.map lowerChar t)) = false
    have hb : (119 == lowerChar c) = false := by
      simp only [beq_eq_false_iff_ne, ne_eq]
      exact fun hh => h hh.symm
    simp [List.isPrefixOf, hb]
  rw [hcs]
  simp

theorem fixCIAux_cons_none {f : Nat} {c : Nat} {t : List Nat}
    (h : matchWhereEq (c :: t) = none) :
    fixCIAux (f + 1) (c :: t) = c :: fixCIAux f t := by
  conv_lhs => rw [fixCIAux]
  rw [h]

theorem fixCIAux_take (k : Nat) :
    ∀ (f : Nat) (l : List Nat), (∀ c ∈ l.take k, lowerChar c ≠ 119) →
      ∃ m, fixCIAux f l = l.take k ++ m := by
  induction k with
  | zero =>
    intro f l _
    exact ⟨fixCIAux f l, by simp⟩
  | succ k ih =>
    intro f l h
    cases l with
    | nil => exact ⟨[], by simp [fixCIAux_nil]⟩
    | cons c t =>
      cases f with
      | zero => exact ⟨(c :: t).drop (k + 1), by simp [fixCIAux]⟩
      | succ f =>
        rw [fixCIAux_cons_none (matchWhereEq_none_of_head (h c (by simp)))]
        obtain ⟨m, hm⟩ := ih f t (fun c' hc' => h c' (by simp [hc']))
        exact ⟨m, by simp [hm]⟩

theorem matchWhereEq_decomp {l col v rest : List Nat}
    (h : matchWhereEq l = some (col, v, rest)) :
    ∃ consumed, l = consumed ++ rest ∧ 59 ∉ consumed ∧ 59 ∉ col ∧ 59 ∉ v := by
  unfold matchWhereEq at h
  split at h
  · rename_i hw
    split at h
    · exact absurd h (by simp)
    · rename_i hws1
      split at h
      · exact absurd h (by simp)
      · rename_i hcol
        split at h
        · rename_i l4 heq3
          split at h
          · rename_i l5 heq4
            split at h
            · exact absurd h (by simp)
            · rename_i hv
              split at h
              · rename_i rest' heq6
                simp only [Option.some.injEq, Prod.mk.injEq] at h
                obtain ⟨hcol', hv', hrest'⟩ := h
                subst hcol'
                subst hv'
                subst hrest'
                refine ⟨l.take 5 ++ ((l.drop 5).takeWhile pySpace) ++
                  (((l.drop 5).dropWhile pySpace).takeWhile isColChar) ++
                  ((((l.drop 5).dropWhile pySpace).dropWhile isColChar).takeWhile pySpace) ++
                  [61] ++ (l4.takeWhile pySpace) ++ [39] ++ (l5.takeWhile isLetter) ++ [39],
                  ?_, ?_, ?_, ?_⟩
                · conv_lhs => rw [← List.take_append_drop 5 l,
                    ← List.takeWhile_append_dropWhile pySpace (l.drop 5),
                    ← List.takeWhile_append_dropWhile isColChar ((l.drop 5).dropWhile pySpace),
                    ← List.takeWhile_append_dropWhile pySpace
                      (((l.drop 5).dropWhile pySpace).dropWhile isColChar),
                    heq3,
                    ← List.takeWhile_append_dropWhile pySpace l4,
                    heq4,
                    ← List.takeWhile_append_dropWhile isLetter l5,
                    heq6]
                  simp [List.append_assoc]
                · intro hmem
                  unfold caseStarts at hw
                  have hmap := take_lower_eq_of_prefix (pyStr "where") l hw
                  have h5 : (pyStr "where").length = 5 := rfl
                  rw [h5] at hmap
                  simp only [List.append_assoc, List.mem_append, List.mem_singleton,
                    List.mem_cons] at hmem
                  rcases hmem with h1 | h1 | h1 | h1 | h1 | h1 | h1 | h1 | h1
                  · have : lowerChar 59 ∈ (pyStr "where") := by
                      rw [← hmap]
                      exact List.mem_map_of_mem lowerChar h1
                    simp [pyStr, lowerChar] at this
                  · have := List.mem_takeWhile_imp h1
                    simp [pySpace] at this
                  · have := List.mem_takeWhile_imp h1
                    simp [isColChar] at this
                  · have := List.mem_takeWhile_imp h1
                    simp [pySpace] at this
                  · simp at h1
                  · have := List.mem_takeWhile_imp h1
                    simp [pySpace] at this
                  · simp at h1
                  · have := List.mem_takeWhile_imp h1
                    simp [isLetter] at this
                  · simp at h1
                · intro hmem
                  have := List.mem_takeWhile_imp hmem
                  simp [isColChar] at this
                · intro hmem
                  have := List.mem_takeWhile_imp hmem
                  simp [isLetter] at this
              · exact absurd h (by simp)
          · exact absurd h (by simp)
        · exact absurd h (by simp)
  · exact absurd h (by simp)

theorem fixCIAux_ends (f : Nat) :
    ∀ a : List Nat, 59 ∉ a → ∃ b, fixCIAux f (a ++ [59]) = b ++ [59] ∧ 59 ∉ b := by
  induction f with
  | zero =>
    intro a ha
    exact ⟨a, by simp [fixCIAux], ha⟩
  | succ f ih =>
    intro a ha
    cases a with
    | nil =>
      rw [List.nil_append]
      rw [fixCIAux_cons_none (matchWhereEq_none_of_head (by decide))]
      rw [fixCIAux_nil]
      exact ⟨[], rfl, by simp⟩
    | cons c a' =>
      have hca : (c :: a') ++ [59] = c :: (a' ++ [59]) := rfl
      rw [hca]
      cases hm : matchWhereEq (c :: (a' ++ [59])) with
      | none =>
        rw [fixCIAux_cons_none hm]
        obtain ⟨b', hb', hnb'⟩ := ih a' (fun hx => ha (List.mem_cons_of_mem c hx))
        have hc59 : c ≠ 59 := fun hc => ha (by simp [hc])
        refine ⟨c :: b', by rw [hb']; rfl, ?_⟩
        intro hx
        rcases List.mem_cons.mp hx with hx | hx
        · exact hc59 hx.symm
        · exact hnb' hx
      | some triple =>
        obtain ⟨col, v, rest⟩ := triple
        have hstep : fixCIAux (f + 1) (c :: (a' ++ [59])) =
            pyStr "WHERE " ++ col ++ pyStr " ILIKE " ++ [39] ++ v ++ [39] ++ fixCIAux f rest := by
          conv_lhs => rw [fixCIAux]
          rw [hm]
        obtain ⟨consumed, hl, hnc, hncol, hnv⟩ := matchWhereEq_decomp hm
        have hrest_ne : rest ≠ [] := by
          intro hr
          subst hr
          rw [List.append_nil] at hl
          exact hnc (by rw [← hl]; simp)
        have h59 : rest.getLast? = some 59 := by
          have h1 : (consumed ++ rest).getLast? = some 59 := by
            rw [← hl]
            rw [show c :: (a' ++ [59]) = (c :: a') ++ [59] from rfl]
            exact List.getLast?_concat _
          rw [List.getLast?_append] at h1
          cases hg : rest.getLast? with
          | none =>
            rw [hg] at h1
            exact absurd (List.getLast?_eq_none_iff.mp hg) hrest_ne
          | some x =>
            rw [hg] at h1
            simpa using h1
        have hsplit : rest = rest.dropLast ++ [59] := by
          have hgl := List.getLast?_eq_getLast rest hrest_ne
          rw [h59] at hgl
          have hval : rest.getLast hrest_ne = 59 := by
            injection hgl with hgl
            exact hgl.symm
          conv_lhs => rw [← List.dropLast_concat_getLast hrest_ne]
          rw [hval]
        have hdrop : 59 ∉ rest.dropLast := by
          intro hx
          have e1 : (consumed ++ rest).dropLast = consumed ++ rest.dropLast :=
            List.dropLast_append_of_ne_nil consumed hrest_ne
          have e2 : (consumed ++ rest).dropLast = c :: a' := by
            rw [← hl]
            rw [show c :: (a' ++ [59]) = (c :: a') ++ [59] from rfl]
            exact List.dropLast_concat
          have : 59 ∈ c :: a' := by
            rw [← e2, e1]
            exact List.mem_append_right _ hx
          exact ha this
        obtain ⟨b', hb', hnb'⟩ := ih rest.dropLast hdrop
        refine ⟨pyStr "WHERE " ++ col ++ pyStr " ILIKE " ++ [39] ++ v ++ [39] ++ b', ?_, ?_⟩
        · rw [hstep, hsplit, hb']
          simp [List.append_assoc]
        · intro hx
          simp only [List.append_assoc, List.mem_append, List.mem_singleton] at hx
          rcases hx with hx | hx | hx | hx | hx | hx | hx
          · simp [pyStr] at hx
          · exact hncol hx
          · simp [pyStr] at hx
          · simp at hx
          · exact hnv hx
          · simp at hx
          · exact hnb' hx

theorem pyStrip_infix_self (l : List Nat) : pyStrip l <:+: l := by
  unfold pyStrip rstripWS lstrip
  exact (List.rdropWhile_prefix _ _).isInfix.trans (List.dropWhile_suffix _).isInfix

theorem rstripSemi_of_no_semi {X : List Nat} (h : 59 ∉ X) : rstripSemi X = X := by
  unfold rstripSemi
  rw [List.rdropWhile_eq_self_iff]
  intro hl
  simp only [beq_iff_eq]
  intro hc
  exact h (hc ▸ List.getLast_mem hl)

theorem caseStarts_append (pat : String) (s m : List Nat) (h : caseStarts pat s = true) :
    caseStarts pat (s ++ m) = true := by
  unfold caseStarts pyLower at h ⊢
  rw [List.isPrefixOf_iff_prefix] at h ⊢
  rw [List.map_append]
  exact h.trans (List.prefix_append _ _)

theorem fixCI_caseStarts_select {X : List Nat} (h : caseStarts "select" X = true) (f : Nat) :
    caseStarts "select" (fixCIAux f X) = true := by
  unfold caseStarts at h
  have hmap := take_lower_eq_of_prefix (pyStr "select") X h
  have h6 : (pyStr "select").length = 6 := rfl
  rw [h6] at hmap
  have hw : ∀ c ∈ X.take 6, lowerChar c ≠ 119 := by
    intro c hc hcontra
    have hmem : lowerChar c ∈ (pyStr "select") := by
      rw [← hmap]
      exact List.mem_map_of_mem lowerChar hc
    rw [hcontra] at hmem
    simp [pyStr] at hmem
  obtain ⟨m, hm⟩ := fixCIAux_take 6 f X hw
  rw [hm]
  unfold caseStarts pyLower
  rw [List.isPrefixOf_iff_prefix, List.map_append, hmap]
  exact List.prefix_append _ _

theorem caseStarts_infix_pyIn {pat : String} {X T : List Nat} (hinf : X <:+: T)
    (hcs : caseStarts pat X = true) : pyIn (pyStr pat) (pyLower T) = true := by
  rw [pyIn_infix_iff]
  unfold caseStarts at hcs
  exact (List.isPrefixOf_iff_prefix.mp hcs).isInfix.trans (hinf.map lowerChar)

/-- The branch structure shared by the fallback and the normalize-and-rewrite
paths: for a semicolon-free extract, the returned statement starts with
`select` (case-insensitively) and ends in exactly one `;`. -/
theorem fix_branch (s : List Nat) (hs : 59 ∉ s) :
    caseStarts "select"
      (fixCaseInsensitive (if !(caseStarts "select" s) then pyStr "SELECT 1;"
        else rstripSemi s ++ [59])) = true ∧
    ∃ a, fixCaseInsensitive (if !(caseStarts "select" s) then pyStr "SELECT 1;"
        else rstripSemi s ++ [59]) = a ++ [59] ∧ 59 ∉ a := by
  cases hcs : caseStarts "select" s with
  | false =>
    simp only [hcs, Bool.not_false, if_true]
    exact ⟨by decide, pyStr "SELECT 1", by decide, by decide⟩
  | true =>
    simp only [hcs, Bool.not_true, Bool.false_eq_true, if_false]
    rw [rstripSemi_of_no_semi hs]
    have hX : caseStarts "select" (s ++ [59]) = true := caseStarts_append _ _ _ hcs
    constructor
    · unfold fixCaseInsensitive
      exact fixCI_caseStarts_select hX _
    · unfold fixCaseInsensitive
      exact fixCIAux_ends _ s hs

/-- Shape of every generated statement: it starts with `select`
case-insensitively and ends in exactly one `;` (no other `;` occurs). -/
theorem generate_sql_text_shape_core (content : List Nat) :
    caseStarts "select" (generate_sql_text content) = true ∧
    ∃ a, generate_sql_text content = a ++ [59] ∧ 59 ∉ a := by
  unfold generate_sql_text
  dsimp only
  cases hsm : selectMatch (textOnly content) with
  | some g =>
    have hg : 59 ∉ g := selectMatch_no_semi hsm
    have hsql : 59 ∉ pyStrip g := fun hx => hg ((pyStrip_infix_self g).subset hx)
    exact fix_branch (pyStrip g) hsql
  | none =>
    have hsh : 59 ∉ splitSemiHead (textOnly content) := by
      intro hx
      have := List.mem_takeWhile_imp hx
      simp at this
    have hsql : 59 ∉ pyStrip (splitSemiHead (textOnly content)) :=
      fun hx => hsh ((pyStrip_infix_self _).subset hx)
    exact fix_branch (pyStrip (splitSemiHead (textOnly content))) hsql

theorem pyStrip_no_edge (a : List Nat) (hhead : caseStarts "select" (a ++ [59]) = true) :
    pyStrip (a ++ [59]) = a ++ [59] := by
  have hrs : rstripWS (a ++ [59]) = a ++ [59] := by
    unfold rstripWS
    exact List.rdropWhile_concat_neg pySpace a 59 (by simp [pySpace])
  have hls : lstrip (a ++ [59]) = a ++ [59] := by
    cases a with
    | nil => rfl
    | cons c a' =>
      unfold caseStarts at hhead
      have h115 : lowerChar c = 115 := by
        revert hhead
        show (List.isPrefixOf [115, 101, 108, 101, 99, 116]
          (lowerChar c :: List.map lowerChar (a' ++ [59]))) = true → _
        simp only [List.isPrefixOf, Bool.and_eq_true, beq_iff_eq]
        intro h
        exact h.1.symm
      have hns : pySpace c = false := by
        unfold pySpace
        rw [decide_eq_false_iff_not]
        unfold lowerChar at h115
        split at h115 <;> omega
      show List.dropWhile pySpace (c :: (a' ++ [59])) = c :: (a' ++ [59])
      rw [List.dropWhile_cons, hns]
      simp
  unfold pyStrip
  rw [hls, hrs]

/-- Claim C6: a model reply containing no case-insensitive `SELECT` after
fences and backticks are removed yields the inert fallback `SELECT 1;`
(no error is raised anywhere in the pipeline, which is total), and every
returned statement ends in exactly one `;`. -/
theorem generate_sql_fallback (content : List Nat) :
    (pyIn (pyStr "select") (pyLower (textOnly content)) = false →
      generate_sql_text content = pyStr "SELECT 1;") ∧
    ∃ a, generate_sql_text content = a ++ [59] ∧ 59 ∉ a := by
  refine ⟨?_, (generate_sql_text_shape_core content).2⟩
  intro h
  have hnone : selectMatch (textOnly content) = none := by
    cases hsm : selectMatch (textOnly content) with
    | none => rfl
    | some g =>
      rw [selectMatch_pyIn hsm] at h
      exact absurd h (by simp)
  unfold generate_sql_text
  dsimp only
  rw [hnone]
  dsimp only
  have hcsf : caseStarts "select" (pyStrip (splitSemiHead (textOnly content))) = false := by
    cases hcs : caseStarts "select" (pyStrip (splitSemiHead (textOnly content))) with
    | false => rfl
    | true =>
      have hinf : pyStrip (splitSemiHead (textOnly content)) <:+: textOnly content :=
        (pyStrip_infix_self _).trans (List.takeWhile_prefix _).isInfix
      rw [caseStarts_infix_pyIn hinf hcs] at h
      exact absurd h (by simp)
  rw [hcsf]
  simp only [Bool.not_false, if_true]
  decide

/-- Witness for `generate_sql_fallback` at a reply with no `SELECT`. -/
theorem generate_sql_fallback_witness :
    generate_sql_text (pyStr "I cannot write that query") = pyStr "SELECT 1;" ∧
    ∃ a, generate_sql_text (pyStr "I cannot write that query") = a ++ [59] ∧ 59 ∉ a :=
  ⟨(generate_sql_fallback (pyStr "I cannot write that query")).1 (by decide),
   (generate_sql_fallback (pyStr "I cannot write that query")).2⟩

/-- Claim C10: for every model reply, the generated `sql` begins
case-insensitively with `select`, ends in exactly one `;` (the
sanitization, the fallback, and the ILIKE rewrite all preserve this shape),
and therefore — stripped and upper-cased it still begins with `SELECT` — it
can never enter the guardrail's non-SELECT keyword scan. -/
theorem generate_sql_text_select_shape (content : List Nat) :
    caseStarts "select" (generate_sql_text content) = true ∧
    (∃ a, generate_sql_text content = a ++ [59] ∧ 59 ∉ a) ∧
    startsWith (pyStr "SELECT") (pyUpper (pyStrip (generate_sql_text content))) = true := by
  obtain ⟨h1, a, ha, hna⟩ := generate_sql_text_shape_core content
  refine ⟨h1, ⟨a, ha, hna⟩, ?_⟩
  rw [ha, pyStrip_no_edge a (ha ▸ h1)]
  unfold startsWith
  have hSEL : pyStr "SELECT" = (pyStr "select").map (fun x => x - 32) := by decide
  rw [hSEL]
  have h1' := h1
  unfold caseStarts at h1'
  rw [ha] at h1'
  exact upper_prefix_of_lower_prefix (pyStr "select") (by decide) (a ++ [59]) h1'

/-! ### The generate endpoint (`api/routes/query.py`, `generate_sql`) -/

/-- The `QueryResponse` fields (`schemas/common.py`) the route manipulates;
the float fields (confidence, temperature) play no role here. -/
structure QueryResponse where
  sql : List Nat
  explanation : Option (List Nat)
  warnings : List (List Nat)
deriving DecidableEq

/-- A Python exception as observed by `except Exception as e`: either a
`fastapi.HTTPException` (status code and detail) or any other exception
carrying its message. -/
inductive PyExc where
  | http (status : Nat) (detail : List Nat)
  | generic (msg : List Nat)
deriving DecidableEq

/-- `str(e)`: a starlette `HTTPException` prints as
`f"{status_code}: {detail}"`; any other exception prints its message. -/
def excStr : PyExc → List Nat
  | .http status detail => natRepr status ++ pyStr ": " ++ detail
  | .generic msg => msg

/-- `"; ".join(warnings)`. -/
def joinSemiSpace : List (List Nat) → List Nat
  | [] => []
  | [w] => w
  | w :: ws => w ++ pyStr "; " ++ joinSemiSpace ws

/-- The body of the `try` block of `POST /query/generate`: run the
generator (its outcome, including a raised exception, is the `gen`
argument), validate the generated statement, extend the warnings when the
decision is unsafe, and raise `HTTPException(400, ...)` when it blocks. -/
def generate_endpoint_inner (gen : Except (List Nat) QueryResponse) :
    Except PyExc QueryResponse :=
  match gen with
  | .error e => .error (.generic e)
  | .ok result =>
    let validation := validate_sql result.sql
    let result2 := if validation.is_safe then result
      else { result with warnings := result.warnings ++ validation.warnings }
    if !validation.is_safe && validation.block_execution then
      .error (.http 400 (pyStr "SQL blocked by guardrails: " ++
        joinSemiSpace validation.warnings))
    else .ok result2

/-- What the endpoint as a whole returns. -/
inductive RouteOutcome where
  | response (r : QueryResponse)
  | httpError (status : Nat) (detail : List Nat)
deriving DecidableEq

/-- The endpoint: `except Exception as e` catches everything the body
raised — `HTTPException` subclasses `Exception`, so the endpoint's own
`HTTPException(400, ...)` is caught too — and re-raises
`HTTPException(500, f"Failed to generate SQL: {str(e)}")`. -/
def route_generate (gen : Except (List Nat) QueryResponse) : RouteOutcome :=
  match generate_endpoint_inner gen with
  | .ok r => .response r
  | .error e => .httpError 500 (pyStr "Failed to generate SQL: " ++ excStr e)

/-- Claim C5: when the guardrail blocks a generated statement the endpoint
does NOT return a 4xx client error: the `raise HTTPException(400, ...)`
is caught by the surrounding `except Exception` and converted into a 500
server error whose detail merely embeds the stringified 400. Evaluated at a
concrete blocked statement. -/
theorem route_generate_block_is_500 :
    (validate_sql (pyStr "SELECT 1; SELECT 2;")).block_execution = true ∧
    route_generate (.ok { sql := pyStr "SELECT 1; SELECT 2;", explanation := none,
                          warnings := [] }) =
      .httpError 500 (pyStr "Failed to generate SQL: 400: SQL blocked by guardrails: Multiple SQL statements detected; only single SELECT allowed") := by
  decide

end TalkToDB
